import Mathlib

set_option maxRecDepth 20000

/-!
Verification of the Questionary quiz application (TypeScript sources under
`src/`) against its natural-language specification.

The development shallowly embeds the data model and the pure logic of the
program:

* `JValue` models the untyped JavaScript values produced by `JSON.parse` /
  `yaml.load` (the generic tree fed to validation), together with the
  JavaScript coercions the code relies on (truthiness, `typeof`, `String(·)`,
  property access, `Object.keys`).
* `validateQuizData`, `parseQuestionsFromText` embed `src/utils.ts`.
* `generateQuizResults`, `exportAsCSV` embed `src/export.ts`
  (`src/unnamed/part_000`).
* `AppState` with `onSelectAnswer`, `handleNext`, `handleStartQuiz`,
  `handleResumeQuiz` embeds the state transitions of the `QuizPage`
  component in `src/App.tsx`; the random draws of `Math.random()` inside the
  Fisher-Yates loop are passed in explicitly as an oracle `draws : Nat → Nat`
  giving the value `Math.floor(Math.random() * (i + 1))` used at loop
  index `i`.

JavaScript numbers are modelled as `Int` (the program only ever stores and
compares option indices and question counts; no fractional value is produced
by the UI).  Fallible code returns `Except`.
-/

namespace Questionary

/-- Untyped JavaScript value as produced by `JSON.parse` / `yaml.load`.
`undefined` is represented at use sites by `Option JValue` (a missing
object property). -/
inductive JValue where
  | null : JValue
  | bool (b : Bool) : JValue
  | num (n : Int) : JValue
  | str (s : String) : JValue
  | arr (items : List JValue) : JValue
  | obj (fields : List (String × JValue)) : JValue
deriving Repr, Inhabited

/-- JavaScript truthiness of a defined value: `null`, `false`, `0` and `""`
are falsy, every array and object is truthy. -/
def jsTruthy : JValue → Bool
  | .null => false
  | .bool b => b
  | .num n => n != 0
  | .str s => s != ""
  | .arr _ => true
  | .obj _ => true

/-- JavaScript `typeof` for a defined value (`typeof null` is `"object"`,
and arrays are objects). -/
def jsTypeof : JValue → String
  | .null => "object"
  | .bool _ => "boolean"
  | .num _ => "number"
  | .str _ => "string"
  | .arr _ => "object"
  | .obj _ => "object"

/-- JavaScript property access `v[key]`: `none` models `undefined`.
A duplicated key in an object literal keeps the last occurrence, as in
JavaScript, hence the lookup over the reversed field list.  Named (non-index)
properties of arrays and of primitives are `undefined`. -/
def jsGet : JValue → String → Option JValue
  | .obj fields, key => (fields.reverse.find? (fun p => p.1 == key)).map (·.2)
  | _, _ => none

/-- Truthiness of the property `key` of `v` (`undefined` is falsy). -/
def jsGetTruthy (v : JValue) (key : String) : Bool :=
  match jsGet v key with
  | some w => jsTruthy w
  | none => false

mutual
/-- JavaScript `String(v)` coercion: arrays join their stringified
elements with `","`, plain objects print as `"[object Object]"`. -/
def jsToString : JValue → String
  | .null => "null"
  | .bool b => if b then "true" else "false"
  | .num n => toString n
  | .str s => s
  | .arr items => String.intercalate "," (jsToStringList items)
  | .obj _ => "[object Object]"

def jsToStringList : List JValue → List String
  | [] => []
  | v :: rest => jsToString v :: jsToStringList rest
end

/-- JavaScript `String(·)` applied to a possibly-`undefined` value. -/
def jsToStringOpt : Option JValue → String
  | some v => jsToString v
  | none => "undefined"

/-- JavaScript `typeof` applied to a possibly-`undefined` value. -/
def jsTypeofOpt : Option JValue → String
  | some v => jsTypeof v
  | none => "undefined"

/-- JavaScript `Object.keys(v).join(", ")`: field names of an object, index strings of
an array. -/
def jsKeys : JValue → List String
  | .obj fields => fields.map (·.1)
  | .arr items => (List.range items.length).map toString
  | _ => []

/-- Escaping of one character inside a JSON string literal, as done by
`JSON.stringify`. -/
def jsonEscapeChar (c : Char) : String :=
  if c = '"' then "\\\""
  else if c = '\\' then "\\\\"
  else if c = '\n' then "\\n"
  else if c = '\t' then "\\t"
  else if c = '\r' then "\\r"
  else String.singleton c

/-- Body of a JSON string literal. -/
def jsonEscape (s : String) : String :=
  s.data.foldl (fun acc c => acc ++ jsonEscapeChar c) ""

/-- Indentation of `n` levels at two spaces per level. -/
def jsonIndent (n : Nat) : String :=
  String.join (List.replicate n "  ")

mutual
/-- Embeds `JSON.stringify(v, null, 2)` at nesting level `lvl` (used verbatim in the
metadata diagnostic of `validateQuizData`). -/
def jsonStringify : Nat → JValue → String
  | _, .null => "null"
  | _, .bool b => if b then "true" else "false"
  | _, .num n => toString n
  | _, .str s => "\"" ++ jsonEscape s ++ "\""
  | lvl, .arr items =>
    match items with
    | [] => "[]"
    | _ =>
      "[\n" ++
        String.intercalate ",\n"
          ((jsonStringifyList (lvl + 1) items).map (fun s => jsonIndent (lvl + 1) ++ s)) ++
        "\n" ++ jsonIndent lvl ++ "]"
  | lvl, .obj fields =>
    match fields with
    | [] => "\x7b\x7d"
    | _ =>
      "\x7b\n" ++
        String.intercalate ",\n"
          ((jsonStringifyFields (lvl + 1) fields).map (fun s => jsonIndent (lvl + 1) ++ s)) ++
        "\n" ++ jsonIndent lvl ++ "\x7d"

def jsonStringifyList : Nat → List JValue → List String
  | _, [] => []
  | lvl, v :: rest => jsonStringify lvl v :: jsonStringifyList lvl rest

def jsonStringifyFields : Nat → List (String × JValue) → List String
  | _, [] => []
  | lvl, (k, v) :: rest =>
    ("\"" ++ jsonEscape k ++ "\": " ++ jsonStringify lvl v) :: jsonStringifyFields lvl rest
end

/-! ### The typed quiz data model (`src/types.ts`) -/

/-- A question: the tagged union of `MCQuestion` and `TFQuestion`.  The
`answer` of an `mc` question is the (integer) index into `options`. -/
inductive Question where
  | mc (id prompt : String) (options : List String) (answer : Int)
      (explanation : Option String) : Question
  | tf (id prompt : String) (answer : Bool) (explanation : Option String) : Question
deriving Repr, DecidableEq, Inhabited

def Question.id : Question → String
  | .mc i _ _ _ _ => i
  | .tf i _ _ _ => i

def Question.prompt : Question → String
  | .mc _ p _ _ _ => p
  | .tf _ p _ _ => p

def Question.explanation : Question → Option String
  | .mc _ _ _ _ e => e
  | .tf _ _ _ e => e

/-- The `type` discriminator string of a question. -/
def Question.qtype : Question → String
  | .mc _ _ _ _ _ => "mc"
  | .tf _ _ _ _ => "tf"

structure QuizMetadata where
  name : String
  author : Option String
deriving Repr, DecidableEq, Inhabited

structure QuizData where
  metadata : QuizMetadata
  questions : List Question
deriving Repr, DecidableEq, Inhabited

/-- A recorded user answer (`number | boolean`); an unanswered question is
`none` in the answers record. -/
inductive AnsValue where
  | num (n : Int) : AnsValue
  | bool (b : Bool) : AnsValue
deriving Repr, DecidableEq, Inhabited

/-! ### `src/utils.ts` — helpers -/

/-- Embeds `formatCorrectAnswer` (src/utils.ts): `q.options[q.answer]` for `mc`
(the out-of-range access yields JavaScript `undefined`, which prints as
`"undefined"` in the string contexts this function feeds), `"True"/"False"`
for `tf`. -/
def formatCorrectAnswer : Question → String
  | .mc _ _ options answer _ =>
    if answer < 0 then "undefined" else options.getD answer.toNat "undefined"
  | .tf _ _ answer _ => if answer then "True" else "False"

/-- Embeds `formatUserAnswer` (src/utils.ts): an em-dash sentinel for an absent or
type-mismatched answer; `q.options[value] ?? "—"` for `mc`; JavaScript
truthiness of the stored value decides `"True"/"False"` for `tf`. -/
def formatUserAnswer (q : Question) (value : Option AnsValue) : String :=
  match value with
  | none => "—"
  | some v =>
    match q with
    | .mc _ _ options _ _ =>
      match v with
      | .num n => if n < 0 then "—" else options.getD n.toNat "—"
      | .bool _ => "—"
    | .tf _ _ _ _ =>
      match v with
      | .num n => if n = 0 then "False" else "True"
      | .bool b => if b then "True" else "False"

/-! ### `validateQuizData` (src/utils.ts lines 56-178) -/

def mustBeArrayMsg : String :=
  "Invalid format: File must be an array of objects.\n\nFor YAML: Use '-' to start each item.\nFor JSON: Use square brackets []."

def emptyArrayMsg : String :=
  "File is empty. Add at least metadata and one question.\n\nExample:\n- metadata:\n    name: \"My Quiz\"\n- id: Q1\n  type: mc\n  prompt: \"Question?\""

def noQuestionsMsg : String :=
  "No valid questions found after metadata.\n\nAdd questions like:\n- id: Q1\n  type: mc\n  prompt: \"Question?\"\n  options: [\"A\", \"B\"]\n  answer: 0"

/-- The error strings pushed by the metadata block of `validateQuizData`
(lines 67-87): an empty list means the metadata checks passed. -/
def metadataErrors (metadataItem : JValue) : List String :=
  if ¬ jsTruthy metadataItem ∨ jsTypeof metadataItem ≠ "object" then
    [ "❌ First item must be a metadata object, not " ++
        (match metadataItem with
         | .null => "null"
         | v => jsTypeof v),
      "\nCorrect format:",
      "YAML: - metadata:\n        name: \"Quiz Title\"",
      "JSON: \x7b\"metadata\": \x7b\"name\": \"Quiz Title\"\x7d\x7d" ]
  else
    match jsGet metadataItem "metadata" with
    | some meta =>
      if ¬ jsTruthy meta ∨ jsTypeof meta ≠ "object" then
        [ "❌ First item must contain a 'metadata' object.",
          "Found keys: " ++ String.intercalate ", " (jsKeys metadataItem),
          "\nCorrect format:",
          "YAML: - metadata:\n        name: \"Quiz Title\"",
          "JSON: [\x7b\"metadata\": \x7b\"name\": \"Quiz Title\"\x7d\x7d]" ]
      else
        match jsGet meta "name" with
        | some nameVal =>
          if ¬ jsTruthy nameVal ∨ jsTypeof nameVal ≠ "string" then
            [ "❌ Metadata must have a required 'name' field (string).",
              "Current metadata: " ++ jsonStringify 0 meta,
              "\nExample: name: \"My Quiz Title\"" ]
          else []
        | none =>
          [ "❌ Metadata must have a required 'name' field (string).",
            "Current metadata: " ++ jsonStringify 0 meta,
            "\nExample: name: \"My Quiz Title\"" ]
    | none =>
      [ "❌ First item must contain a 'metadata' object.",
        "Found keys: " ++ String.intercalate ", " (jsKeys metadataItem),
        "\nCorrect format:",
        "YAML: - metadata:\n        name: \"Quiz Title\"",
        "JSON: [\x7b\"metadata\": \x7b\"name\": \"Quiz Title\"\x7d\x7d]" ]

/-- One iteration of the question loop of `validateQuizData` (lines
100-167): either the normalized question that is pushed, or the error
strings pushed for this element before `continue`. -/
def elementCheck (questionNum : Nat) (q : JValue) : Except (List String) Question :=
  if ¬ jsTruthy q ∨ jsTypeof q ≠ "object" then
    .error [ "❌ Question " ++ toString questionNum ++ ": Must be an object, got " ++
      (match q with
       | .null => "null"
       | v => jsTypeof v) ]
  else
    let missingFields :=
      (if ¬ jsGetTruthy q "id" then ["id"] else []) ++
      (if ¬ jsGetTruthy q "type" then ["type"] else []) ++
      (if ¬ jsGetTruthy q "prompt" then ["prompt"] else [])
    if missingFields ≠ [] then
      .error [ "❌ Question " ++ toString questionNum ++ ": Missing required fields: " ++
                 String.intercalate ", " missingFields,
               "   Found keys: " ++ String.intercalate ", " (jsKeys q) ]
    else
      match jsGet q "type" with
      | some (.str "mc") =>
        match jsGet q "options" with
        | some (.arr options) =>
          if options.length < 2 then
            .error [ "❌ MC Question " ++ toString questionNum ++
                       ": Must have at least 2 options, got " ++ toString options.length ]
          else
            match jsGet q "answer" with
            | some (.num answer) =>
              if answer < 0 ∨ answer ≥ (options.length : Int) then
                .error [ "❌ MC Question " ++ toString questionNum ++ ": Answer index " ++
                           toString answer ++ " is out of range. Valid range: 0-" ++
                           toString (options.length - 1) ]
              else
                .ok (Question.mc (jsToStringOpt (jsGet q "id"))
                      (jsToStringOpt (jsGet q "prompt"))
                      (jsToStringList options) answer
                      (if jsGetTruthy q "explanation" then
                         some (jsToStringOpt (jsGet q "explanation"))
                       else none))
            | other =>
              .error [ "❌ MC Question " ++ toString questionNum ++
                         ": 'answer' must be a number (index), got " ++ jsTypeofOpt other,
                       "   Example: answer: 0  (for first option)" ]
        | _ =>
          .error [ "❌ MC Question " ++ toString questionNum ++ ": 'options' must be an array",
                   "   Example: options: [\"A\", \"B\", \"C\", \"D\"]" ]
      | some (.str "tf") =>
        match jsGet q "answer" with
        | some (.bool answer) =>
          .ok (Question.tf (jsToStringOpt (jsGet q "id"))
                (jsToStringOpt (jsGet q "prompt")) answer
                (if jsGetTruthy q "explanation" then
                   some (jsToStringOpt (jsGet q "explanation"))
                 else none))
        | other =>
          .error [ "❌ TF Question " ++ toString questionNum ++
                     ": 'answer' must be true or false, got " ++ jsToStringOpt other ++
                     " (" ++ jsTypeofOpt other ++ ")",
                   "   Example: answer: true" ]
      | other =>
        .error [ "❌ Question " ++ toString questionNum ++ ": Unknown question type '" ++
                   jsToStringOpt other ++
                   "'. Use 'mc' (multiple choice) or 'tf' (true/false)" ]

/-- The error strings contributed by one element (empty when the element
normalizes successfully). -/
def elementErrors (questionNum : Nat) (q : JValue) : List String :=
  match elementCheck questionNum q with
  | .error es => es
  | .ok _ => []

/-- The question loop of `validateQuizData`: accumulated error strings (in
push order) and normalized questions, starting at display number `start`. -/
def processQuestions (start : Nat) : List JValue → List String × List Question
  | [] => ([], [])
  | v :: rest =>
    let er := processQuestions (start + 1) rest
    match elementCheck start v with
    | .error es => (es ++ er.1, er.2)
    | .ok q => (er.1, q :: er.2)

/-- Embeds `validateQuizData` (src/utils.ts): normalizes the parsed generic tree
into a `QuizData`, throwing (here: returning `.error`) the aggregated
message on failure. -/
def validateQuizData (raw : JValue) : Except String QuizData :=
  match raw with
  | .arr items =>
    match items with
    | [] => .error emptyArrayMsg
    | metadataItem :: rest =>
      let metaErrs := metadataErrors metadataItem
      if metaErrs ≠ [] then
        .error ("Metadata validation failed:\n" ++ String.intercalate "\n" metaErrs)
      else
        let metadata : QuizMetadata :=
          { name :=
              jsToStringOpt (match jsGet metadataItem "metadata" with
                             | some meta => jsGet meta "name"
                             | none => none),
            author :=
              match jsGet metadataItem "metadata" with
              | some meta =>
                if jsGetTruthy meta "author" then
                  some (jsToStringOpt (jsGet meta "author"))
                else none
              | none => none }
        let eq := processQuestions 1 rest
        if eq.1 ≠ [] then
          .error ("Question validation failed (" ++ toString eq.1.length ++ " errors):\n" ++
                    String.intercalate "\n\n" eq.1)
        else if eq.2.isEmpty then
          .error noQuestionsMsg
        else
          .ok { metadata := metadata, questions := eq.2 }
  | _ => .error mustBeArrayMsg

/-! ### `parseQuestionsFromText` (src/utils.ts lines 14-54)

The two text parsers (`JSON.parse` and `yaml.load`) are external library
calls; the function is embedded parametrically in them, so every theorem
below holds for arbitrary parser behaviour. -/

def emptyInputMsg : String :=
  "File is empty. Please provide a valid JSON or YAML file with quiz questions."

/-- JavaScript `String.prototype.trim`, written over the character list so
that it evaluates by kernel reduction. -/
def jsTrim (s : String) : String :=
  String.mk (((s.data.dropWhile Char.isWhitespace).reverse.dropWhile
    Char.isWhitespace).reverse)

/-- Whether `needle` occurs as a substring of `haystack` (JavaScript
`String.prototype.includes`). -/
def strIncludes (haystack needle : String) : Bool :=
  decide (needle.data <:+: haystack.data)

/-- The aggregated diagnostic built when both parse attempts fail (lines
32-51); `jsonErr` and `yamlErr` are the messages of the two caught
errors. -/
def genericParseMsg (jsonErr yamlErr : String) : String :=
  "Failed to parse file. " ++
    ((if strIncludes jsonErr "Unexpected token" then
        "The file appears to be YAML but has JSON-like syntax errors. "
      else if strIncludes jsonErr "Expected property name" then
        "Invalid JSON format. Check for missing quotes or commas. "
      else "") ++
     ((if strIncludes yamlErr "bad indentation" then
         "YAML indentation error. Make sure all items at the same level have consistent indentation. "
       else if strIncludes yamlErr "duplicated mapping key" then
         "YAML error: duplicate keys found. "
       else "") ++
      "\n\nExpected format:\nYAML: Start with '- metadata:' followed by questions starting with '- id:'\nJSON: Array of objects starting with metadata object"))

/-- Embeds `Array.isArray(json) ? json : [json]`. -/
def wrapAsArray (v : JValue) : JValue :=
  match v with
  | .arr items => .arr items
  | w => .arr [w]

/-- The YAML fallback branch of `parseQuestionsFromText`: `jsonErr` is the
message of whatever the JSON attempt threw (a parse failure or a validation
failure — both are caught by the same `catch`). -/
def yamlFallback (yamlParse : String → Except String JValue) (text : String)
    (jsonErr : String) : Except String QuizData :=
  match yamlParse text with
  | .ok doc =>
    match validateQuizData (wrapAsArray doc) with
    | .ok d => .ok d
    | .error yamlErr => .error (genericParseMsg jsonErr yamlErr)
  | .error yamlErr => .error (genericParseMsg jsonErr yamlErr)

/-- Embeds `parseQuestionsFromText` (src/utils.ts): fails fast on empty input, then
tries JSON, falling back to YAML; a non-array parse result is wrapped into a
one-element array before validation.  Note that a validation failure inside
the JSON attempt is caught by the surrounding `catch` and triggers the YAML
fallback. -/
def parseQuestionsFromText (jsonParse yamlParse : String → Except String JValue)
    (text : String) : Except String QuizData :=
  if text = "" ∨ (jsTrim text).length = 0 then
    .error emptyInputMsg
  else
    match jsonParse text with
    | .ok json =>
      match validateQuizData (wrapAsArray json) with
      | .ok d => .ok d
      | .error jsonErr => yamlFallback yamlParse text jsonErr
    | .error jsonErr => yamlFallback yamlParse text jsonErr

/-! ### Scoring and export (`src/unnamed/part_000`, i.e. `export.ts`) -/

structure QuizResult where
  questionNumber : Nat
  questionId : String
  questionText : String
  questionType : String
  userAnswer : String
  correctAnswer : String
  isCorrect : Bool
  explanation : Option String
deriving Repr, DecidableEq, Inhabited

/-- The `isCorrect` computation of `generateQuizResults` (and of
`ResultsView`): strict, type-checked equality of the stored answer with the
canonical answer. -/
def isCorrectAnswer (q : Question) (user : Option AnsValue) : Bool :=
  match q, user with
  | .mc _ _ _ answer _, some (.num n) => n == answer
  | .tf _ _ answer _, some (.bool b) => b == answer
  | _, _ => false

/-- The record built for the question at (zero-based) position `p.1` by the
mapping arrow inside `generateQuizResults`. -/
def resultFor (answers : String → Option AnsValue) (p : Nat × Question) : QuizResult :=
  { questionNumber := p.1 + 1,
    questionId := p.2.id,
    questionText := p.2.prompt,
    questionType := p.2.qtype,
    userAnswer := formatUserAnswer p.2 (answers p.2.id),
    correctAnswer := formatCorrectAnswer p.2,
    isCorrect := isCorrectAnswer p.2 (answers p.2.id),
    explanation := p.2.explanation }

/-- Embeds `generateQuizResults` (export.ts lines 16-37): one result record per
question, in the order of the `questions` argument. -/
def generateQuizResults (questions : List Question)
    (answers : String → Option AnsValue) : List QuizResult :=
  questions.enum.map (resultFor answers)

/-- Embeds `.replace(/"/g, '""')`: double every double-quote character. -/
def escapeQuotes (s : String) : String :=
  String.mk (s.data.foldr (fun c acc => if c = '"' then '"' :: '"' :: acc else c :: acc) [])

def csvHeaders : List String :=
  [ "Question Number", "Question ID", "Question Text", "Question Type",
    "User Answer", "Correct Answer", "Is Correct", "Explanation" ]

/-- The eight cells of one CSV row as built by `exportAsCSV` (export.ts
lines 67-76), before `join(',')`.  Only `questionText` and `explanation` go
through `.replace(/"/g, '""')`; the other quoted cells interpolate the raw
value. -/
def csvFields (result : QuizResult) : List String :=
  [ toString result.questionNumber,
    "\"" ++ result.questionId ++ "\"",
    "\"" ++ escapeQuotes result.questionText ++ "\"",
    result.questionType,
    "\"" ++ result.userAnswer ++ "\"",
    "\"" ++ result.correctAnswer ++ "\"",
    (if result.isCorrect then "true" else "false"),
    (match result.explanation with
     | some e => if jsTruthy (.str e) then "\"" ++ escapeQuotes e ++ "\"" else ""
     | none => "") ]

/-- The `csvContent` string assembled by `exportAsCSV` (the download
side-effect around it is UI plumbing). -/
def exportAsCSV (results : List QuizResult) : String :=
  String.intercalate "\n"
    (String.intercalate "," csvHeaders ::
      results.map (fun r => String.intercalate "," (csvFields r)))

/-- Modelled from the spec (§4.5 export): "standard CSV quoting": a cell
holding text `s` is wrapped in double quotes with every embedded double
quote escaped by doubling it.  Used to compare the code's cells against the
spec's demand. -/
def specCsvCell (s : String) : String :=
  "\"" ++ escapeQuotes s ++ "\""

/-! ### `QuizPage` state machine (src/App.tsx) -/

structure QuizSettings where
  randomOrder : Bool
deriving Repr, DecidableEq, Inhabited

inductive View where
  | setup | settings | quiz | results
deriving Repr, DecidableEq, Inhabited

/-- The reactive state of `QuizPage` relevant to the verified operations:
`questions` is the displayed (active, possibly shuffled) order,
`originalQuestions` the loaded document order, `answers` the
`Record<string, number | boolean | undefined>` keyed by question id. -/
structure AppState where
  view : View
  questions : List Question
  originalQuestions : List Question
  quizSettings : QuizSettings
  currentIndex : Nat
  answers : String → Option AnsValue

/-- Embeds `{...prev, [key]: value}` on the answers record. -/
def recordSet (m : String → Option AnsValue) (key : String) (value : AnsValue) :
    String → Option AnsValue :=
  fun k => if k = key then some value else m k

/-- Embeds `onSelectAnswer` (App.tsx lines 157-160): stores `value` under the
current question's id; no type check is performed. -/
def onSelectAnswer (s : AppState) (value : AnsValue) : AppState :=
  match s.questions[s.currentIndex]? with
  | none => s
  | some current => { s with answers := recordSet s.answers current.id value }

/-- Embeds `handleNext` (App.tsx lines 162-171).  The `Bool` component records
whether the `alert(...)` warning fired.  JavaScript `total - 1` on
`total = 0` is `-1` and the outer guard fails, exactly as with truncated
`Nat` subtraction here. -/
def handleNext (s : AppState) : AppState × Bool :=
  if s.currentIndex < s.questions.length - 1 then
    match s.questions[s.currentIndex]? with
    | some current =>
      if s.answers current.id = none then
        (s, true)
      else
        ({ s with currentIndex := s.currentIndex + 1 }, false)
    | none =>
      -- `current && answers[current.id] === undefined` is falsy when
      -- `current` is undefined, so the index is incremented.
      ({ s with currentIndex := s.currentIndex + 1 }, false)
  else
    (s, false)

/-- Embeds `[a[i], a[j]] = [a[j], a[i]]` on a list; indices outside the list leave
it unchanged (the loop below only produces in-range indices). -/
def swapAt (l : List Question) (i j : Nat) : List Question :=
  match l[i]?, l[j]? with
  | some a, some b => (l.set i b).set j a
  | _, _ => l

/-- The Fisher-Yates loop of `handleStartQuiz` (App.tsx lines 321-324),
indexed by the loop variable `i` counting down; `draws i` is the value
`Math.floor(Math.random() * (i + 1))` drawn at index `i`. -/
def fisherYatesLoop (draws : Nat → Nat) : Nat → List Question → List Question
  | 0, l => l
  | i + 1, l => fisherYatesLoop draws i (swapAt l (i + 1) (draws (i + 1)))

/-- The full Fisher-Yates shuffle of `handleStartQuiz`: `i` runs from
`length - 1` down to `1`. -/
def fisherYates (l : List Question) (draws : Nat → Nat) : List Question :=
  fisherYatesLoop draws (l.length - 1) l

/-- Embeds `handleStartQuiz` (App.tsx lines 315-329): shuffles a copy of
`originalQuestions` when `randomOrder` is set, installs it as the active
question list and enters the quiz view. -/
def handleStartQuiz (s : AppState) (settings : QuizSettings) (draws : Nat → Nat) :
    AppState :=
  let quizQuestions := s.originalQuestions
  let quizQuestions :=
    if settings.randomOrder then fisherYates quizQuestions draws else quizQuestions
  { s with quizSettings := settings, questions := quizQuestions, view := View.quiz }

/-- The persisted snapshot (src/types.ts `SavedQuizState`) restricted to the
fields `handleResumeQuiz` reads; `none` models an absent optional field. -/
structure SavedQuizState where
  id : String
  quizDataQuestions : List Question
  settings : QuizSettings
  answers : String → Option AnsValue
  currentIndex : Nat
  completed : Bool
  questionOrder : Option (List String)
  currentQuestionId : Option String
  orderedQuestions : Option (List Question)

/-- Embeds `new Map(baseQuestions.map(q => [q.id, q])).get(id)`: a later entry with
the same key overwrites an earlier one, hence the lookup over the reversed
list. -/
def byIdGet (base : List Question) (i : String) : Option Question :=
  (base.reverse.find? (fun q => q.id == i))

/-- The fallback of the resume-order reconstruction: the verbatim snapshot
of the previously displayed questions when available and non-empty,
otherwise the document's questions. -/
def resumeFallback (saved : SavedQuizState) (base : List Question) : List Question :=
  match saved.orderedQuestions with
  | some oq => if 0 < oq.length then oq else base
  | none => base

/-- The `orderedQuestions` reconstruction of `handleResumeQuiz` (App.tsx
lines 220-243). -/
def resumeOrderedQuestions (saved : SavedQuizState) : List Question :=
  let base := saved.quizDataQuestions
  let savedOrderIds : Option (List String) :=
    match saved.questionOrder with
    | some l =>
      if 0 < l.length then some l
      else saved.orderedQuestions.map (List.map Question.id)
    | none => saved.orderedQuestions.map (List.map Question.id)
  match savedOrderIds with
  | some ids =>
    if 0 < ids.length then
      let mapped := ids.filterMap (byIdGet base)
      if 0 < mapped.length then
        mapped ++ base.filter (fun q => !((mapped.map Question.id).contains q.id))
      else resumeFallback saved base
    else resumeFallback saved base
  | none => resumeFallback saved base

/-- Embeds `handleResumeQuiz` (App.tsx lines 215-268), restricted to the state
fields modelled here (the quiz-data and saved-id bookkeeping is dropped). -/
def handleResumeQuiz (s : AppState) (saved : SavedQuizState) : AppState :=
  let base := saved.quizDataQuestions
  let orderedQuestions := resumeOrderedQuestions saved
  let idx0 := saved.currentIndex
  let idx1 :=
    match saved.currentQuestionId with
    | some cid =>
      if cid ≠ "" then
        match orderedQuestions.findIdx? (fun q => q.id == cid) with
        | some idx => idx
        | none => idx0
      else idx0
    | none => idx0
  let restoredIndex :=
    if orderedQuestions.length = 0 then 0
    else min (max idx1 0) (orderedQuestions.length - 1)
  { s with view := View.quiz,
           questions := orderedQuestions,
           originalQuestions := base,
           quizSettings := saved.settings,
           answers := saved.answers,
           currentIndex := restoredIndex }

/-- Whether `v` is an array (`Array.isArray`). -/
def JValue.isArr : JValue → Bool
  | .arr _ => true
  | _ => false

/-! ## Supporting lemmas -/

/-- Two strings differ when the left one is an append whose first part
already disagrees with the right one at some character position. -/
theorem string_append_ne (a b c : String) (n : Nat) (hn : n < a.data.length)
    (h : a.data[n]? ≠ c.data[n]?) : a ++ b ≠ c := by
  intro he
  apply h
  have hd : a.data ++ b.data = c.data := by
    have := congrArg String.data he
    simpa [String.data_append] using this
  rw [← hd]
  exact (List.getElem?_append_left hn).symm

theorem wrapAsArray_of_not_arr {v : JValue} (h : v.isArr = false) :
    wrapAsArray v = JValue.arr [v] := by
  cases v <;> simp_all [JValue.isArr, wrapAsArray]

theorem genericParseMsg_ne_mustBeArrayMsg (a b : String) :
    genericParseMsg a b ≠ mustBeArrayMsg := by
  apply string_append_ne _ _ _ 0 (by decide)
  decide

theorem genericParseMsg_ne_emptyInputMsg (a b : String) :
    genericParseMsg a b ≠ emptyInputMsg := by
  apply string_append_ne _ _ _ 1 (by decide)
  decide

/-! ## C9 — empty input fails fast with the dedicated error -/

/-- C9: for every input string that is empty or consists only of whitespace
(`text.trim = ""`), `parseQuestionsFromText` fails with the dedicated
empty-document error, whatever the two format parsers would do (so neither
parse is attempted); and that error is never equal to the generic
both-formats-failed diagnostic. -/
theorem C9_empty_input_fails_fast (jsonParse yamlParse : String → Except String JValue)
    (text : String) (h : jsTrim text = "") :
    parseQuestionsFromText jsonParse yamlParse text = .error emptyInputMsg
    ∧ ∀ a b : String, genericParseMsg a b ≠ emptyInputMsg := by
  refine ⟨?_, genericParseMsg_ne_emptyInputMsg⟩
  unfold parseQuestionsFromText
  rw [if_pos]
  exact Or.inr (by rw [h]; rfl)

/-- Witness for C9 at the concrete input `""` (and a whitespace-only
input), with parsers that would succeed if they were consulted. -/
theorem C9_empty_input_fails_fast_witness :
    parseQuestionsFromText (fun _ => .ok (JValue.arr [])) (fun _ => .ok (JValue.arr []))
      "" = .error emptyInputMsg
    ∧ parseQuestionsFromText (fun _ => .ok (JValue.arr [])) (fun _ => .ok (JValue.arr []))
      " \n\t " = .error emptyInputMsg :=
  ⟨(C9_empty_input_fails_fast _ _ "" (by decide)).1,
   (C9_empty_input_fails_fast _ _ " \n\t " (by decide)).1⟩

/-! ## C10 — a non-array parse result is wrapped, not rejected -/

/-- The lone top-level object of the concrete scenario,
`{"metadata": {"name": "X"}}`. -/
def loneMetadataObj : JValue :=
  JValue.obj [("metadata", JValue.obj [("name", JValue.str "X")])]

/-- The YAML fallback never surfaces the must-be-an-array diagnostic: its
value is wrapped before validation, and its failures are the generic
both-formats message. -/
theorem yamlFallback_ne_mustBeArrayMsg (yamlParse : String → Except String JValue)
    (text jsonErr : String) :
    yamlFallback yamlParse text jsonErr ≠ .error mustBeArrayMsg := by
  unfold yamlFallback
  split
  · split
    · simp
    · simp only [ne_eq, Except.error.injEq]
      exact genericParseMsg_ne_mustBeArrayMsg _ _
  · simp only [ne_eq, Except.error.injEq]
    exact genericParseMsg_ne_mustBeArrayMsg _ _

/-- For every input and every behaviour of the two parsers,
`parseQuestionsFromText` never fails with the must-be-an-array diagnostic:
both wrap sites hand validation an array. -/
theorem parseQuestionsFromText_ne_mustBeArrayMsg
    (jsonParse yamlParse : String → Except String JValue) (text : String) :
    parseQuestionsFromText jsonParse yamlParse text ≠ .error mustBeArrayMsg := by
  unfold parseQuestionsFromText
  split
  · simp only [ne_eq, Except.error.injEq]
    decide
  · split
    · split
      · simp
      · exact yamlFallback_ne_mustBeArrayMsg _ _ _
    · exact yamlFallback_ne_mustBeArrayMsg _ _ _

/-- A non-array value produced by the YAML fallback parse is wrapped into a
one-element array before validation (the wrap site at utils.ts line 29). -/
theorem yamlFallback_wraps (yamlParse : String → Except String JValue)
    (text jsonErr : String) (w : JValue)
    (hy : yamlParse text = .ok w) (hw : w.isArr = false) :
    yamlFallback yamlParse text jsonErr =
      (match validateQuizData (.arr [w]) with
       | .ok d => .ok d
       | .error yamlErr => .error (genericParseMsg jsonErr yamlErr)) := by
  unfold yamlFallback
  rw [hy]
  dsimp only
  rw [wrapAsArray_of_not_arr hw]

/-- C10: `parseQuestionsFromText` never fails with the must-be-an-array
diagnostic, for any input and parser behaviour; whichever parse succeeds —
the JSON attempt, or the fallback YAML parse after the JSON attempt threw —
a non-array value is wrapped into a one-element array before validation, so
a successful validation of the wrapping is returned as is; and the wrapped
lone metadata object `{"metadata": {"name": "X"}}` passes the metadata
checks and fails only for containing zero questions. -/
theorem C10_nonarray_is_wrapped (jsonParse yamlParse : String → Except String JValue)
    (text : String) (v w : JValue)
    (ht : ¬ (text = "" ∨ (jsTrim text).length = 0)) :
    parseQuestionsFromText jsonParse yamlParse text ≠ .error mustBeArrayMsg
    ∧ (jsonParse text = .ok v → v.isArr = false →
        parseQuestionsFromText jsonParse yamlParse text =
          (match validateQuizData (.arr [v]) with
           | .ok d => .ok d
           | .error jsonErr => yamlFallback yamlParse text jsonErr))
    ∧ (jsonParse text = .ok v → v.isArr = false →
        ∀ d, validateQuizData (.arr [v]) = .ok d →
          parseQuestionsFromText jsonParse yamlParse text = .ok d)
    ∧ (∀ jsonErr : String, yamlParse text = .ok w → w.isArr = false →
        yamlFallback yamlParse text jsonErr =
          (match validateQuizData (.arr [w]) with
           | .ok d => .ok d
           | .error yamlErr => .error (genericParseMsg jsonErr yamlErr)))
    ∧ (∀ jsonErr : String, jsonParse text = .error jsonErr →
        yamlParse text = .ok w → w.isArr = false →
          parseQuestionsFromText jsonParse yamlParse text =
            (match validateQuizData (.arr [w]) with
             | .ok d => .ok d
             | .error yamlErr => .error (genericParseMsg jsonErr yamlErr)))
    ∧ validateQuizData (.arr [loneMetadataObj]) = .error noQuestionsMsg := by
  refine ⟨parseQuestionsFromText_ne_mustBeArrayMsg _ _ _, ?_, ?_, ?_, ?_, by rfl⟩
  · intro hj hv
    unfold parseQuestionsFromText
    rw [if_neg ht, hj]
    dsimp only
    rw [wrapAsArray_of_not_arr hv]
  · intro hj hv d hd
    unfold parseQuestionsFromText
    rw [if_neg ht, hj]
    dsimp only
    rw [wrapAsArray_of_not_arr hv, hd]
  · intro jsonErr hy hw
    exact yamlFallback_wraps yamlParse text jsonErr w hy hw
  · intro jsonErr hje hy hw
    unfold parseQuestionsFromText
    rw [if_neg ht, hje]
    dsimp only
    exact yamlFallback_wraps yamlParse text jsonErr w hy hw

/-- Witness for C10 in both branches: a JSON parser returning the lone
metadata object, and a failing JSON parser whose YAML fallback returns it —
in the latter case the object provably reaches validation, fails with the
zero-questions diagnostic, and the surfaced error is the generic message
built from it, never the must-be-an-array one. -/
theorem C10_nonarray_is_wrapped_witness :
    parseQuestionsFromText (fun _ => .ok loneMetadataObj) (fun _ => .ok loneMetadataObj)
      "\x7b\"metadata\": \x7b\"name\": \"X\"\x7d\x7d" ≠ .error mustBeArrayMsg
    ∧ parseQuestionsFromText (fun _ => .error "EJ") (fun _ => .ok loneMetadataObj)
        "- metadata:" = .error (genericParseMsg "EJ" noQuestionsMsg)
    ∧ validateQuizData (.arr [loneMetadataObj]) = .error noQuestionsMsg := by
  have h1 := C10_nonarray_is_wrapped (fun _ => .ok loneMetadataObj)
    (fun _ => .ok loneMetadataObj) "\x7b\"metadata\": \x7b\"name\": \"X\"\x7d\x7d"
    loneMetadataObj loneMetadataObj (by decide)
  have h2 := C10_nonarray_is_wrapped (fun _ => .error "EJ")
    (fun _ => .ok loneMetadataObj) "- metadata:" loneMetadataObj loneMetadataObj
    (by decide)
  refine ⟨h1.1, ?_, h1.2.2.2.2.2⟩
  have h5 := h2.2.2.2.2.1 "EJ" rfl rfl (by rfl)
  rw [h5]
  rfl

/-! ## C3 — validation does not enforce id uniqueness -/

theorem processQuestions_mem {q : Question} :
    ∀ (start : Nat) (l : List JValue), q ∈ (processQuestions start l).2 →
      ∃ n v, elementCheck n v = .ok q := by
  intro start l
  induction l generalizing start with
  | nil => simp [processQuestions]
  | cons v rest ih =>
    intro hq
    unfold processQuestions at hq
    cases hec : elementCheck start v with
    | error es =>
      rw [hec] at hq
      exact ih (start + 1) hq
    | ok q0 =>
      rw [hec] at hq
      rcases List.mem_cons.1 hq with rfl | hmem
      · exact ⟨start, v, hec⟩
      · exact ih (start + 1) hmem

/-- The only check `validateQuizData` performs on a question's raw `id`
value is JavaScript truthiness; the id stored in the normalized question is
the `String(·)` coercion of that truthy value. -/
theorem elementCheck_ok_id (n : Nat) (v : JValue) (q : Question)
    (h : elementCheck n v = .ok q) :
    ∃ w : JValue, jsTruthy w = true ∧ q.id = jsToString w := by
  unfold elementCheck at h
  by_cases h1 : ¬ jsTruthy v ∨ jsTypeof v ≠ "object"
  · rw [if_pos h1] at h
    exact absurd h (by simp)
  · rw [if_neg h1] at h
    dsimp only at h
    by_cases h2 :
        (((if ¬ jsGetTruthy v "id" then ["id"] else []) ++
           (if ¬ jsGetTruthy v "type" then ["type"] else [])) ++
          (if ¬ jsGetTruthy v "prompt" then ["prompt"] else [])) ≠ []
    · rw [if_pos h2] at h
      exact absurd h (by simp)
    · rw [if_neg h2] at h
      push_neg at h2
      have hid : jsGetTruthy v "id" = true := by
        by_contra hid
        simp [hid] at h2
      have htr : ∃ w, jsGet v "id" = some w ∧ jsTruthy w = true := by
        unfold jsGetTruthy at hid
        cases hg : jsGet v "id" with
        | none => rw [hg] at hid; exact absurd hid (by simp)
        | some w => rw [hg] at hid; exact ⟨w, rfl, hid⟩
      obtain ⟨w, hg, hw⟩ := htr
      refine ⟨w, hw, ?_⟩
      repeat' split at h
      all_goals try exact Except.noConfusion h
      all_goals (rw [Except.ok.injEq] at h; subst h; simp [Question.id, jsToStringOpt, hg])

/-- C3 (amended): a question id in a validated document is the `String(·)`
coercion of a truthy raw `id` value — truthiness is the only id check, so
neither uniqueness across the document nor (for non-string raw ids)
non-emptiness of the coerced id is guaranteed. -/
theorem C3_amended_id_check_is_truthiness_only (raw : JValue) (d : QuizData)
    (h : validateQuizData raw = .ok d) (q : Question) (hq : q ∈ d.questions) :
    ∃ v : JValue, jsTruthy v = true ∧ q.id = jsToString v := by
  cases raw with
  | null => exact absurd h (by simp [validateQuizData])
  | bool b => exact absurd h (by simp [validateQuizData])
  | num n => exact absurd h (by simp [validateQuizData])
  | str s => exact absurd h (by simp [validateQuizData])
  | obj fields => exact absurd h (by simp [validateQuizData])
  | arr items =>
    cases items with
    | nil => exact absurd h (by simp [validateQuizData])
    | cons m rest =>
      unfold validateQuizData at h
      dsimp only at h
      split at h
      · exact absurd h (by simp)
      · split at h
        · exact absurd h (by simp)
        · split at h
          · exact absurd h (by simp)
          · rw [Except.ok.injEq] at h
            have hqs : d.questions = (processQuestions 1 rest).2 := by rw [← h]
            rw [hqs] at hq
            obtain ⟨n, v, hnv⟩ := processQuestions_mem _ _ hq
            exact elementCheck_ok_id n v q hnv

/-- Witness for the amended C3 theorem, at a concrete validated document. -/
theorem C3_amended_witness :
    ∃ v : JValue, jsTruthy v = true ∧
      (Question.tf "Q1" "p1" true none).id = jsToString v :=
  C3_amended_id_check_is_truthiness_only
    (JValue.arr
      [ JValue.obj [("metadata", JValue.obj [("name", JValue.str "X")])],
        JValue.obj [("id", .str "Q1"), ("type", .str "tf"),
                    ("prompt", .str "p1"), ("answer", .bool true)] ])
    { metadata := { name := "X", author := none },
      questions := [Question.tf "Q1" "p1" true none] }
    (by rfl) _ (by simp)

/-- C3 counterexample: an input whose two question elements carry the same
id `"Q1"` validates into a document with duplicate ids, and a truthy
non-string id (the empty array) validates into an empty string id — both
parts of the claimed invariant fail. -/
theorem C3_counterexample :
    validateQuizData (JValue.arr
      [ JValue.obj [("metadata", JValue.obj [("name", JValue.str "X")])],
        JValue.obj [("id", .str "Q1"), ("type", .str "tf"),
                    ("prompt", .str "p1"), ("answer", .bool true)],
        JValue.obj [("id", .str "Q1"), ("type", .str "tf"),
                    ("prompt", .str "p2"), ("answer", .bool false)] ])
      = .ok { metadata := { name := "X", author := none },
              questions := [Question.tf "Q1" "p1" true none,
                            Question.tf "Q1" "p2" false none] }
    ∧ ¬ ([Question.tf "Q1" "p1" true none,
          Question.tf "Q1" "p2" false none].map Question.id).Nodup
    ∧ validateQuizData (JValue.arr
        [ JValue.obj [("metadata", JValue.obj [("name", JValue.str "X")])],
          JValue.obj [("id", JValue.arr []), ("type", .str "tf"),
                      ("prompt", .str "p"), ("answer", .bool true)] ])
        = .ok { metadata := { name := "X", author := none },
                questions := [Question.tf "" "p" true none] } :=
  ⟨by rfl, by decide, by rfl⟩

/-! ## C5 — validation aggregates every element's diagnostics -/

/-- Every diagnostic produced for the element at position `k` of the
question list ends up in the accumulated error list: no element's errors
are dropped because of an earlier element's failure. -/
theorem processQuestions_errors_sub :
    ∀ (l : List JValue) (start k : Nat) (hk : k < l.length),
      ∀ e ∈ elementErrors (start + k) (l.get ⟨k, hk⟩), e ∈ (processQuestions start l).1 := by
  intro l
  induction l with
  | nil => intro start k hk; exact absurd hk (by simp)
  | cons v rest ih =>
    intro start k hk e he
    cases k with
    | zero =>
      have hv : (v :: rest).get ⟨0, hk⟩ = v := rfl
      unfold elementErrors at he
      rw [Nat.add_zero, hv] at he
      unfold processQuestions
      cases hec : elementCheck start v with
      | error es =>
        rw [hec] at he
        dsimp only at he ⊢
        exact List.mem_append_left _ he
      | ok q0 =>
        rw [hec] at he
        dsimp only at he
        exact absurd he (by simp)
    | succ k' =>
      have hk' : k' < rest.length := by simpa using hk
      have hv : (v :: rest).get ⟨k' + 1, hk⟩ = rest.get ⟨k', hk'⟩ := rfl
      have he' : e ∈ elementErrors ((start + 1) + k') (rest.get ⟨k', hk'⟩) := by
        have harith : start + (k' + 1) = (start + 1) + k' := by omega
        rw [harith, hv] at he
        exact he
      have hmem := ih (start + 1) k' hk' e he'
      unfold processQuestions
      cases hec : elementCheck start v with
      | error es =>
        dsimp only
        exact List.mem_append_right _ hmem
      | ok q0 =>
        dsimp only
        exact hmem

/-- C5: with the metadata checks passing and (at least) two distinct
question elements invalid, `validateQuizData` fails with one single error
whose message is assembled from an error list containing every invalid
element's diagnostics — one element's failure never hides another's. -/
theorem C5_validation_aggregates_all_errors (m : JValue) (tail : List JValue)
    (hmeta : metadataErrors m = [])
    (i j : Nat) (hi : i < tail.length) (hj : j < tail.length) (hij : i ≠ j)
    (hei : elementErrors (i + 1) (tail.get ⟨i, hi⟩) ≠ [])
    (hej : elementErrors (j + 1) (tail.get ⟨j, hj⟩) ≠ []) :
    ∃ errs : List String,
      validateQuizData (.arr (m :: tail)) =
        .error ("Question validation failed (" ++ toString errs.length ++ " errors):\n" ++
          String.intercalate "\n\n" errs)
      ∧ ∀ k (hk : k < tail.length),
          ∀ e ∈ elementErrors (k + 1) (tail.get ⟨k, hk⟩), e ∈ errs := by
  refine ⟨(processQuestions 1 tail).1, ?_, ?_⟩
  · have hne : (processQuestions 1 tail).1 ≠ [] := by
      obtain ⟨e, he⟩ := List.exists_mem_of_ne_nil _ hei
      intro hnil
      have : e ∈ (processQuestions 1 tail).1 := by
        have := processQuestions_errors_sub tail 1 i hi e (by rw [Nat.add_comm]; exact he)
        exact this
      rw [hnil] at this
      exact absurd this (by simp)
    unfold validateQuizData
    dsimp only
    rw [if_neg (by simp [hmeta]), if_pos hne]
  · intro k hk e he
    exact processQuestions_errors_sub tail 1 k hk e (by rw [Nat.add_comm]; exact he)

/-- Witness for C5: a number where an object is required (element 1) and an
unknown question type (element 2) are both reported. -/
theorem C5_validation_aggregates_all_errors_witness :
    ∃ errs : List String,
      validateQuizData (.arr
        [ JValue.obj [("metadata", JValue.obj [("name", JValue.str "X")])],
          JValue.num 3,
          JValue.obj [("id", .str "Q2"), ("type", .str "xx"), ("prompt", .str "p")] ]) =
        .error ("Question validation failed (" ++ toString errs.length ++ " errors):\n" ++
          String.intercalate "\n\n" errs)
      ∧ ∀ k (hk : k <
            ([ JValue.num 3,
               JValue.obj [("id", .str "Q2"), ("type", .str "xx"), ("prompt", .str "p")] ] :
              List JValue).length),
          ∀ e ∈ elementErrors (k + 1)
              (([ JValue.num 3,
                  JValue.obj [("id", .str "Q2"), ("type", .str "xx"), ("prompt", .str "p")] ] :
                 List JValue).get ⟨k, hk⟩), e ∈ errs :=
  C5_validation_aggregates_all_errors
    (JValue.obj [("metadata", JValue.obj [("name", JValue.str "X")])])
    [ JValue.num 3,
      JValue.obj [("id", .str "Q2"), ("type", .str "xx"), ("prompt", .str "p")] ]
    (by rfl) 0 1 (by decide) (by decide) (by decide)
    (by intro h; exact absurd (congrArg List.length h) (by decide))
    (by intro h; exact absurd (congrArg List.length h) (by decide))

/-! ## C2 — CSV quoting: only text and explanation are escaped -/

/-- A result whose question id contains an embedded double quote (as a
validated id may) and whose question text is the spec's concrete
scenario. -/
def csvQuoteResult : QuizResult :=
  { questionNumber := 1, questionId := "a\"b", questionText := "He said \"hi\"",
    questionType := "mc", userAnswer := "A", correctAnswer := "B",
    isCorrect := true, explanation := none }

/-- C2 counterexample: the Question-ID cell of the produced CSV keeps the
embedded quote unescaped (`"a"b"`), which differs from the standard CSV
quoting the claim demands for every text field; consequently the whole CSV
line differs from the claim's fully-escaped rendering. -/
theorem C2_counterexample :
    (csvFields csvQuoteResult).get? 1 = some "\"a\"b\""
    ∧ "\"a\"b\"" ≠ specCsvCell "a\"b"
    ∧ exportAsCSV [csvQuoteResult] ≠
        String.intercalate "\n"
          [ String.intercalate "," csvHeaders,
            String.intercalate ","
              [ toString (1 : Nat), specCsvCell "a\"b", specCsvCell "He said \"hi\"",
                "mc", specCsvCell "A", specCsvCell "B", "true", "" ] ] :=
  ⟨by rfl, by decide, by decide⟩

/-- C2 (amended): the CSV is the fixed 8-column header followed by one
8-cell row per result; the question-text and explanation cells follow
standard CSV quoting (quotes doubled) — in particular the text
`He said "hi"` yields the cell `"He said ""hi"""` — while the question-id,
user-answer and correct-answer cells are wrapped in double quotes with
embedded quotes left untouched, and a falsy explanation yields an empty
unquoted cell. -/
theorem C2_amended_csv_quoting (results : List QuizResult) (r : QuizResult) :
    exportAsCSV results =
      String.intercalate "\n"
        (String.intercalate "," csvHeaders ::
          results.map (fun x => String.intercalate "," (csvFields x)))
    ∧ (csvFields r).length = 8
    ∧ (csvFields r).get? 2 = some (specCsvCell r.questionText)
    ∧ (∀ e, r.explanation = some e → e ≠ "" →
        (csvFields r).get? 7 = some (specCsvCell e))
    ∧ (∀ e, r.explanation = some e → e = "" → (csvFields r).get? 7 = some "")
    ∧ (r.explanation = none → (csvFields r).get? 7 = some "")
    ∧ (csvFields r).get? 1 = some ("\"" ++ r.questionId ++ "\"")
    ∧ (csvFields r).get? 4 = some ("\"" ++ r.userAnswer ++ "\"")
    ∧ (csvFields r).get? 5 = some ("\"" ++ r.correctAnswer ++ "\"")
    ∧ specCsvCell "He said \"hi\"" = "\"He said \"\"hi\"\"\"" := by
  refine ⟨rfl, rfl, rfl, ?_, ?_, ?_, rfl, rfl, rfl, by decide⟩
  · intro e he hne
    have hb : (e != "") = true := by simpa using hne
    simp [csvFields, he, jsTruthy, hb, specCsvCell]
  · intro e he hee
    subst hee
    simp [csvFields, he, jsTruthy]
  · intro he
    simp [csvFields, he]

/-- Witness for the amended C2 theorem at a concrete result row with a
non-empty explanation. -/
theorem C2_amended_csv_quoting_witness :
    (csvFields
      { questionNumber := 2, questionId := "Q7", questionText := "t",
        questionType := "tf", userAnswer := "True", correctAnswer := "False",
        isCorrect := false, explanation := some "because \"x\"" }).get? 7 =
      some (specCsvCell "because \"x\"") :=
  (C2_amended_csv_quoting []
      { questionNumber := 2, questionId := "Q7", questionText := "t",
        questionType := "tf", userAnswer := "True", correctAnswer := "False",
        isCorrect := false, explanation := some "because \"x\"" }).2.2.2.1
    "because \"x\"" rfl (by decide)

/-! ## C4 — onSelectAnswer stores any value, unchecked -/

/-- Modelled from the spec (§4.3 `answer`, §7 `AnswerTypeMismatchError`):
the value's primitive type does not match the question's variant. -/
def specTypeMismatch (q : Question) (v : AnsValue) : Bool :=
  match q, v with
  | .mc _ _ _ _ _, .bool _ => true
  | .tf _ _ _ _, .num _ => true
  | _, _ => false

/-- A quiz state sitting on a single multiple-choice question with no
recorded answers. -/
def mcStateQ1 : AppState :=
  { view := View.quiz,
    questions := [Question.mc "Q1" "p" ["A", "B"] 0 none],
    originalQuestions := [Question.mc "Q1" "p" ["A", "B"] 0 none],
    quizSettings := { randomOrder := false },
    currentIndex := 0,
    answers := fun _ => none }

/-- C4 counterexample: offering the boolean `true` for the current
multiple-choice question stores it — the answers mapping is changed and the
mismatched value is kept, contradicting the claimed rejection. -/
theorem C4_counterexample :
    (onSelectAnswer mcStateQ1 (AnsValue.bool true)).answers "Q1" =
      some (AnsValue.bool true)
    ∧ mcStateQ1.answers "Q1" = none
    ∧ (mcStateQ1.questions[mcStateQ1.currentIndex]?).map Question.qtype = some "mc" :=
  ⟨rfl, rfl, rfl⟩

/-- C4 (amended): `onSelectAnswer` stores any offered value under the
current question's id unconditionally — no type check is performed; the
rest of the state is untouched, and a type-mismatched stored value is only
neutralized later, at scoring, where the strict type-checked equality marks
it incorrect. -/
theorem C4_amended_onSelectAnswer_unchecked (s : AppState) (v : AnsValue) (q : Question)
    (hq : s.questions[s.currentIndex]? = some q) :
    (onSelectAnswer s v).answers q.id = some v
    ∧ (onSelectAnswer s v).view = s.view
    ∧ (onSelectAnswer s v).currentIndex = s.currentIndex
    ∧ (onSelectAnswer s v).questions = s.questions
    ∧ (∀ k, k ≠ q.id → (onSelectAnswer s v).answers k = s.answers k)
    ∧ (specTypeMismatch q v = true → isCorrectAnswer q (some v) = false) := by
  have hres : onSelectAnswer s v = { s with answers := recordSet s.answers q.id v } := by
    unfold onSelectAnswer
    rw [hq]
  refine ⟨?_, by rw [hres], by rw [hres], by rw [hres], ?_, ?_⟩
  · rw [hres]
    simp [recordSet]
  · intro k hk
    rw [hres]
    simp [recordSet, hk]
  · intro hmm
    cases q <;> cases v <;> simp_all [specTypeMismatch, isCorrectAnswer]

/-- Witness for the amended C4 theorem: the mismatched boolean is stored
verbatim and scores as incorrect. -/
theorem C4_amended_witness :
    (onSelectAnswer mcStateQ1 (AnsValue.bool true)).answers
        (Question.mc "Q1" "p" ["A", "B"] 0 none).id = some (AnsValue.bool true)
    ∧ isCorrectAnswer (Question.mc "Q1" "p" ["A", "B"] 0 none)
        (some (AnsValue.bool true)) = false :=
  ⟨(C4_amended_onSelectAnswer_unchecked mcStateQ1 (AnsValue.bool true)
      (Question.mc "Q1" "p" ["A", "B"] 0 none) rfl).1,
   (C4_amended_onSelectAnswer_unchecked mcStateQ1 (AnsValue.bool true)
      (Question.mc "Q1" "p" ["A", "B"] 0 none) rfl).2.2.2.2.2 rfl⟩

/-! ## C6 — handleNext: no-op on unanswered, silent at the last index -/

/-- C6 (amended): `handleNext` never changes `view`, `answers` or
`questions`; when the current position is not strictly before the last
index it does nothing, silently; before the last index it is a no-op with
the warning when the current question is unanswered, and otherwise advances
by exactly one, never past the last index. -/
theorem C6_amended_handleNext (s : AppState) :
    (handleNext s).1.view = s.view
    ∧ (handleNext s).1.answers = s.answers
    ∧ (handleNext s).1.questions = s.questions
    ∧ (¬ s.currentIndex < s.questions.length - 1 → handleNext s = (s, false))
    ∧ (∀ q, s.currentIndex < s.questions.length - 1 →
        s.questions[s.currentIndex]? = some q → s.answers q.id = none →
          handleNext s = (s, true))
    ∧ (∀ q, s.currentIndex < s.questions.length - 1 →
        s.questions[s.currentIndex]? = some q → s.answers q.id ≠ none →
          (handleNext s).1.currentIndex = s.currentIndex + 1
          ∧ (handleNext s).2 = false
          ∧ (handleNext s).1.currentIndex ≤ s.questions.length - 1) := by
  by_cases hlt : s.currentIndex < s.questions.length - 1
  · cases hq : s.questions[s.currentIndex]? with
    | none =>
      exfalso
      have hlen : s.questions.length ≤ s.currentIndex := List.getElem?_eq_none_iff.1 hq
      omega
    | some q0 =>
      by_cases ha : s.answers q0.id = none
      · have hres : handleNext s = (s, true) := by
          unfold handleNext
          rw [if_pos hlt, hq]
          dsimp only
          rw [if_pos ha]
        refine ⟨by rw [hres], by rw [hres], by rw [hres],
          fun h => absurd hlt h, fun q _ _ _ => hres, ?_⟩
        intro q _ hq' ha'
        cases hq'
        exact absurd ha ha'
      · have hres : handleNext s =
            ({ s with currentIndex := s.currentIndex + 1 }, false) := by
          unfold handleNext
          rw [if_pos hlt, hq]
          dsimp only
          rw [if_neg ha]
        refine ⟨by rw [hres], by rw [hres], by rw [hres],
          fun h => absurd hlt h, ?_, ?_⟩
        · intro q _ hq' ha'
          cases hq'
          exact absurd ha' ha
        · intro q _ _ _
          rw [hres]
          refine ⟨rfl, rfl, ?_⟩
          show s.currentIndex + 1 ≤ s.questions.length - 1
          omega
  · have hres : handleNext s = (s, false) := by
      unfold handleNext
      rw [if_neg hlt]
    exact ⟨by rw [hres], by rw [hres], by rw [hres], fun _ => hres,
      fun q hlt' _ _ => absurd hlt' hlt, fun q hlt' _ _ => absurd hlt' hlt⟩

/-- A quiz state sitting on its last (single) question, unanswered. -/
def lastUnansweredState : AppState :=
  { view := View.quiz,
    questions := [Question.tf "Q1" "p" true none],
    originalQuestions := [Question.tf "Q1" "p" true none],
    quizSettings := { randomOrder := false },
    currentIndex := 0,
    answers := fun _ => none }

/-- C6 counterexample: at the last index with the current question
unanswered (and in the quiz phase), `handleNext` is a no-op but emits no
warning — the claim's "only a user-facing warning is emitted" fails
there. -/
theorem C6_counterexample :
    lastUnansweredState.view = View.quiz
    ∧ lastUnansweredState.answers "Q1" = none
    ∧ lastUnansweredState.questions[lastUnansweredState.currentIndex]? =
        some (Question.tf "Q1" "p" true none)
    ∧ handleNext lastUnansweredState = (lastUnansweredState, false) :=
  ⟨rfl, rfl, rfl, rfl⟩

/-- A quiz state on the first of two questions, both unanswered. -/
def twoQState : AppState :=
  { view := View.quiz,
    questions := [Question.tf "Q1" "p1" true none, Question.tf "Q2" "p2" false none],
    originalQuestions := [Question.tf "Q1" "p1" true none, Question.tf "Q2" "p2" false none],
    quizSettings := { randomOrder := false },
    currentIndex := 0,
    answers := fun _ => none }

/-- Witness for the amended C6 theorem: before the last index an unanswered
current question makes `handleNext` a warning-only no-op. -/
theorem C6_amended_witness :
    handleNext twoQState = (twoQState, true) :=
  (C6_amended_handleNext twoQState).2.2.2.2.1
    (Question.tf "Q1" "p1" true none) (by decide) rfl rfl

/-! ## C7 — startQuiz produces a permutation of the loaded questions -/

/-- Moving the element at position `m` to the front while writing `x` into
its slot permutes `x` onto the front. -/
theorem get_cons_set_perm :
    ∀ (t : List Question) (m : Nat) (hm : m < t.length) (x : Question),
      (t.get ⟨m, hm⟩ :: t.set m x).Perm (x :: t) := by
  intro t
  induction t with
  | nil => intro m hm; exact absurd hm (by simp)
  | cons y s ih =>
    intro m hm x
    cases m with
    | zero => simpa using List.Perm.swap x y s
    | succ m' =>
      have hm' : m' < s.length := by simpa using hm
      have h1 : (s.get ⟨m', hm'⟩ :: y :: s.set m' x).Perm
          (y :: s.get ⟨m', hm'⟩ :: s.set m' x) := List.Perm.swap _ _ _
      have h2 : (y :: s.get ⟨m', hm'⟩ :: s.set m' x).Perm (y :: x :: s) :=
        List.Perm.cons y (ih m' hm' x)
      have h3 : (y :: x :: s).Perm (x :: y :: s) := List.Perm.swap x y s
      simpa using (h1.trans h2).trans h3

/-- Writing each of two in-range positions' values into the other's slot is
a permutation. -/
theorem set_set_perm :
    ∀ (l : List Question) (i j : Nat) (hi : i < l.length) (hj : j < l.length),
      ((l.set i (l.get ⟨j, hj⟩)).set j (l.get ⟨i, hi⟩)).Perm l := by
  intro l
  induction l with
  | nil => intro i j hi _; exact absurd hi (by simp)
  | cons x t ih =>
    intro i j hi hj
    cases i with
    | zero =>
      cases j with
      | zero => simp
      | succ m =>
        have hm : m < t.length := by simpa using hj
        simpa using get_cons_set_perm t m hm x
    | succ n =>
      cases j with
      | zero =>
        have hn : n < t.length := by simpa using hi
        simpa using get_cons_set_perm t n hn x
      | succ m =>
        have hn : n < t.length := by simpa using hi
        have hm : m < t.length := by simpa using hj
        simpa using List.Perm.cons x (ih n m hn hm)

theorem swapAt_perm (l : List Question) (i j : Nat) : (swapAt l i j).Perm l := by
  cases hi : l[i]? with
  | none =>
    cases hj : l[j]? with
    | none => simp only [swapAt, hi, hj]; exact List.Perm.refl l
    | some b => simp only [swapAt, hi, hj]; exact List.Perm.refl l
  | some a =>
    cases hj : l[j]? with
    | none => simp only [swapAt, hi, hj]; exact List.Perm.refl l
    | some b =>
      simp only [swapAt, hi, hj]
      obtain ⟨hi', hia⟩ := List.getElem?_eq_some.1 hi
      obtain ⟨hj', hjb⟩ := List.getElem?_eq_some.1 hj
      have hga : l.get ⟨i, hi'⟩ = a := by rw [List.get_eq_getElem]; exact hia
      have hgb : l.get ⟨j, hj'⟩ = b := by rw [List.get_eq_getElem]; exact hjb
      have hp := set_set_perm l i j hi' hj'
      rw [hga, hgb] at hp
      exact hp

theorem fisherYatesLoop_perm (draws : Nat → Nat) :
    ∀ (i : Nat) (l : List Question), (fisherYatesLoop draws i l).Perm l := by
  intro i
  induction i with
  | zero => intro l; exact List.Perm.refl l
  | succ n ih =>
    intro l
    exact (ih _).trans (swapAt_perm l (n + 1) (draws (n + 1)))

theorem fisherYates_perm (l : List Question) (draws : Nat → Nat) :
    (fisherYates l draws).Perm l :=
  fisherYatesLoop_perm draws (l.length - 1) l

/-- C7: for every loaded document and every outcome of the random draws,
`handleStartQuiz` installs a question sequence that is a permutation of the
originally loaded questions — the identity when `randomOrder` is off, the
Fisher-Yates shuffle of (a copy of) the original questions when it is on —
and enters the quiz view. -/
theorem C7_startQuiz_permutation (s : AppState) (settings : QuizSettings)
    (draws : Nat → Nat) :
    ((handleStartQuiz s settings draws).questions).Perm s.originalQuestions
    ∧ (settings.randomOrder = false →
        (handleStartQuiz s settings draws).questions = s.originalQuestions)
    ∧ (settings.randomOrder = true →
        (handleStartQuiz s settings draws).questions =
          fisherYates s.originalQuestions draws)
    ∧ (handleStartQuiz s settings draws).view = View.quiz := by
  cases hr : settings.randomOrder with
  | false =>
    refine ⟨?_, fun _ => ?_, fun hc => absurd hc (by simp), rfl⟩
    · simp [handleStartQuiz, hr]
    · simp [handleStartQuiz, hr]
  | true =>
    refine ⟨?_, fun hc => absurd hc (by simp), fun _ => ?_, rfl⟩
    · simp only [handleStartQuiz, hr, if_true]
      exact fisherYates_perm s.originalQuestions draws
    · simp [handleStartQuiz, hr]

/-- Witness for C7: identity order without shuffling, and a permutation
(here the reversal produced by the draw oracle returning 0) with it. -/
theorem C7_startQuiz_permutation_witness :
    (handleStartQuiz twoQState { randomOrder := false } (fun _ => 0)).questions =
      twoQState.originalQuestions
    ∧ ((handleStartQuiz twoQState { randomOrder := true } (fun _ => 0)).questions).Perm
        twoQState.originalQuestions :=
  ⟨(C7_startQuiz_permutation twoQState { randomOrder := false } (fun _ => 0)).2.1 rfl,
   (C7_startQuiz_permutation twoQState { randomOrder := true } (fun _ => 0)).1⟩

/-! ## C1 — scoring order and strict correctness -/

/-- Modelled from the spec (§4.5): the canonical answer of a question, as a
stored-answer value — the answer index for `mc`, the boolean for `tf`. -/
def specCanonicalAnswer : Question → AnsValue
  | .mc _ _ _ a _ => .num a
  | .tf _ _ a _ => .bool a

/-- The code's strict, type-checked `isCorrect` equals the spec's "stored
answer is exactly the canonical answer". -/
theorem isCorrectAnswer_iff (q : Question) (u : Option AnsValue) :
    isCorrectAnswer q u = true ↔ u = some (specCanonicalAnswer q) := by
  cases q with
  | mc i p o a e =>
    cases u with
    | none => simp [isCorrectAnswer, specCanonicalAnswer]
    | some v =>
      cases v <;> simp [isCorrectAnswer, specCanonicalAnswer]
  | tf i p a e =>
    cases u with
    | none => simp [isCorrectAnswer, specCanonicalAnswer]
    | some v =>
      cases v <;> simp [isCorrectAnswer, specCanonicalAnswer]

/-- C1 (amended): `generateQuizResults` emits one result per question **in
the order of the question list it is given** (at the results screen this is
the active, possibly shuffled, order); each result's `isCorrect` is the
strict, type-checked equality of the stored answer with the question's
canonical answer (a number equal to the answer index for `mc`, a boolean
equal to the answer for `tf`), and an absent answer is never correct. -/
theorem C1_amended_results_order_and_correctness (qs : List Question)
    (answers : String → Option AnsValue) :
    (generateQuizResults qs answers).map (fun r => r.questionId) = qs.map Question.id
    ∧ (generateQuizResults qs answers).length = qs.length
    ∧ ∀ (i : Nat) (q : Question) (r : QuizResult),
        qs[i]? = some q → (generateQuizResults qs answers)[i]? = some r →
          (r.isCorrect = true ↔ answers q.id = some (specCanonicalAnswer q))
          ∧ (answers q.id = none → r.isCorrect = false) := by
  refine ⟨?_, ?_, ?_⟩
  · unfold generateQuizResults
    rw [List.map_map]
    have h2 : ((fun r : QuizResult => r.questionId) ∘ resultFor answers) =
        (Question.id ∘ Prod.snd) := rfl
    rw [h2, ← List.map_map, List.enum, List.enumFrom_map_snd]
  · unfold generateQuizResults
    rw [List.length_map, List.enum, List.enumFrom_length]
  · intro i q r hq hr
    unfold generateQuizResults at hr
    rw [List.getElem?_map, List.enum, List.getElem?_enumFrom, hq] at hr
    have hr' : resultFor answers (0 + i, q) = r := by simpa using hr
    have hic : r.isCorrect = isCorrectAnswer q (answers q.id) := by
      rw [← hr']
      rfl
    constructor
    · rw [hic]
      exact isCorrectAnswer_iff q (answers q.id)
    · intro hnone
      rw [hic, hnone]
      cases q <;> rfl

/-- Witness for the amended C1 theorem at a two-question list with one
stored (wrong) answer. -/
theorem C1_amended_witness :
    (generateQuizResults
        [Question.mc "q1" "p1" ["A", "B"] 1 none, Question.tf "q2" "p2" true none]
        (fun k => if k = "q1" then some (AnsValue.num 0) else none)).map
      (fun r => r.questionId) =
      [Question.mc "q1" "p1" ["A", "B"] 1 none,
       Question.tf "q2" "p2" true none].map Question.id :=
  (C1_amended_results_order_and_correctness
    [Question.mc "q1" "p1" ["A", "B"] 1 none, Question.tf "q2" "p2" true none]
    (fun k => if k = "q1" then some (AnsValue.num 0) else none)).1

/-- The state of C1's concrete scenario after a shuffle that reverses the
two loaded questions (the draw oracle returns 0 at every index). -/
def c1ShuffledState : AppState :=
  handleStartQuiz
    { view := View.settings,
      questions := [Question.mc "q1" "p1" ["A", "B"] 0 none,
                    Question.tf "q2" "p2" true none],
      originalQuestions := [Question.mc "q1" "p1" ["A", "B"] 0 none,
                            Question.tf "q2" "p2" true none],
      quizSettings := { randomOrder := false },
      currentIndex := 0,
      answers := fun _ => none }
    { randomOrder := true } (fun _ => 0)

/-- C1 counterexample: after the shuffle the results screen receives the
active list `[q2, q1]`, and `generateQuizResults` emits the per-question
results in that active order — not in the original document order
`[q1, q2]` the claim demands. -/
theorem C1_counterexample :
    (generateQuizResults c1ShuffledState.questions (fun _ => none)).map
        (fun r => r.questionId) = ["q2", "q1"]
    ∧ c1ShuffledState.originalQuestions.map Question.id = ["q1", "q2"]
    ∧ (generateQuizResults c1ShuffledState.questions (fun _ => none)).map
        (fun r => r.questionId) ≠
        c1ShuffledState.originalQuestions.map Question.id :=
  ⟨rfl, rfl, by decide⟩

/-! ## C8 — resume is stable under document shrinkage -/

theorem strContainsIffMem {l : List String} {a : String} :
    l.contains a = true ↔ a ∈ l := by
  simp [List.contains_iff_exists_mem_beq]

theorem byIdGet_some {base : List Question} {i : String} {q : Question}
    (h : byIdGet base i = some q) : q ∈ base ∧ q.id = i := by
  unfold byIdGet at h
  refine ⟨?_, ?_⟩
  · exact List.mem_reverse.1 (List.mem_of_find?_eq_some h)
  · have := List.find?_some h
    simpa using this

theorem byIdGet_none_iff {base : List Question} {i : String} :
    byIdGet base i = none ↔ ∀ q ∈ base, q.id ≠ i := by
  unfold byIdGet
  rw [List.find?_eq_none]
  constructor
  · intro h q hq
    have := h q (List.mem_reverse.2 hq)
    simpa using this
  · intro h q hq
    have := h q (List.mem_reverse.1 hq)
    simpa using this

/-- With pairwise-distinct ids, looking a member question's own id up in
the id map returns exactly that question. -/
theorem byIdGet_mem_self {base : List Question}
    (hnd : (base.map Question.id).Nodup) {q : Question} (hq : q ∈ base) :
    byIdGet base q.id = some q := by
  cases hfind : byIdGet base q.id with
  | none => exact absurd (byIdGet_none_iff.1 hfind q hq) (by simp)
  | some q0 =>
    obtain ⟨hq0mem, hq0id⟩ := byIdGet_some hfind
    have : q0 = q := List.inj_on_of_nodup_map hnd hq0mem hq hq0id
    rw [this]

/-- The ids of the questions recovered from the saved order are exactly the
saved ids that still exist in the document, in their saved relative
order. -/
theorem mapped_map_id (base : List Question) (ids : List String) :
    (ids.filterMap (byIdGet base)).map Question.id =
      ids.filter (fun i => base.any (fun q => q.id == i)) := by
  induction ids with
  | nil => rfl
  | cons i rest ih =>
    rw [List.filterMap_cons, List.filter_cons]
    cases hb : byIdGet base i with
    | none =>
      have hany : base.any (fun q => q.id == i) = false := by
        rw [List.any_eq_false]
        intro q hq
        simpa using byIdGet_none_iff.1 hb q hq
      simp [hany, ih]
    | some q =>
      obtain ⟨hmem, hid⟩ := byIdGet_some hb
      have hany : base.any (fun q0 => q0.id == i) = true :=
        List.any_eq_true.2 ⟨q, hmem, by simp [hid]⟩
      simp [hany, ih, hid]

theorem mapped_nodup (base : List Question) (ids : List String)
    (hnd : ids.Nodup) : (ids.filterMap (byIdGet base)).Nodup := by
  refine List.Nodup.filterMap ?_ hnd
  intro a a' b hb hb'
  obtain ⟨_, hid1⟩ := byIdGet_some (Option.mem_def.1 hb)
  obtain ⟨_, hid2⟩ := byIdGet_some (Option.mem_def.1 hb')
  rw [← hid1, hid2]

theorem mem_mapped {base : List Question} {ids : List String} {q : Question}
    (hnd : (base.map Question.id).Nodup) :
    q ∈ ids.filterMap (byIdGet base) ↔ q ∈ base ∧ q.id ∈ ids := by
  rw [List.mem_filterMap]
  constructor
  · rintro ⟨i, hi, hb⟩
    obtain ⟨hmem, hid⟩ := byIdGet_some hb
    exact ⟨hmem, hid ▸ hi⟩
  · rintro ⟨hmem, hid⟩
    exact ⟨q.id, hid, byIdGet_mem_self hnd hmem⟩

/-- C8: resuming from a snapshot whose saved order mentions vanished ids but
hits at least one existing id rebuilds the active list as: the still-existing
saved ids first, in their saved relative order, followed by the document's
questions the saved order does not mention — and the result is a permutation
of the document's questions (each exactly once, no dangling id). -/
theorem C8_resume_stable_under_shrinkage (s : AppState) (saved : SavedQuizState)
    (ids : List String)
    (hqo : saved.questionOrder = some ids)
    (hndIds : ids.Nodup)
    (hndBase : (saved.quizDataQuestions.map Question.id).Nodup)
    (hhit : ∃ i ∈ ids, ∃ q ∈ saved.quizDataQuestions, q.id = i) :
    ((handleResumeQuiz s saved).questions).Perm saved.quizDataQuestions
    ∧ (handleResumeQuiz s saved).questions.map Question.id =
        ids.filter (fun i => saved.quizDataQuestions.any (fun q => q.id == i)) ++
          (saved.quizDataQuestions.filter
            (fun q => !(ids.contains q.id))).map Question.id := by
  set base := saved.quizDataQuestions with hbase
  obtain ⟨i0, hi0, q0, hq0, hq0id⟩ := hhit
  have hidsne : 0 < ids.length := List.length_pos_of_mem hi0
  have hq0get : byIdGet base i0 = some q0 := by
    rw [← hq0id]
    exact byIdGet_mem_self hndBase hq0
  have hq0mapped : q0 ∈ ids.filterMap (byIdGet base) :=
    List.mem_filterMap.2 ⟨i0, hi0, hq0get⟩
  have hmappedne : 0 < (ids.filterMap (byIdGet base)).length :=
    List.length_pos_of_mem hq0mapped
  have hqs : (handleResumeQuiz s saved).questions = resumeOrderedQuestions saved := rfl
  have hform : resumeOrderedQuestions saved =
      ids.filterMap (byIdGet base) ++
        base.filter (fun q =>
          !(((ids.filterMap (byIdGet base)).map Question.id).contains q.id)) := by
    unfold resumeOrderedQuestions
    rw [hqo]
    dsimp only
    rw [if_pos hidsne]
    dsimp only
    rw [if_pos hidsne, if_pos hmappedne]
  have hfilter : base.filter (fun q =>
        !(((ids.filterMap (byIdGet base)).map Question.id).contains q.id)) =
      base.filter (fun q => !(ids.contains q.id)) := by
    apply List.filter_congr
    intro q hq
    have hiff : (((ids.filterMap (byIdGet base)).map Question.id).contains q.id) =
        (ids.contains q.id) := by
      by_cases hmem : q.id ∈ ids
      · have h1 : q.id ∈ (ids.filterMap (byIdGet base)).map Question.id :=
          List.mem_map.2 ⟨q, (mem_mapped hndBase).2 ⟨hq, hmem⟩, rfl⟩
        rw [strContainsIffMem.2 h1, strContainsIffMem.2 hmem]
      · have h1 : q.id ∉ (ids.filterMap (byIdGet base)).map Question.id := by
          intro hin
          obtain ⟨m, hm, hmid⟩ := List.mem_map.1 hin
          obtain ⟨_, hmid2⟩ := (mem_mapped hndBase).1 hm
          exact hmem (hmid ▸ hmid2)
        have e1 : (((ids.filterMap (byIdGet base)).map Question.id).contains q.id) =
            false := by
          rw [← Bool.not_eq_true]
          intro hc
          exact h1 (strContainsIffMem.1 hc)
        have e2 : (ids.contains q.id) = false := by
          rw [← Bool.not_eq_true]
          intro hc
          exact hmem (strContainsIffMem.1 hc)
        rw [e1, e2]
    rw [hiff]
  have hperm : (resumeOrderedQuestions saved).Perm base := by
    rw [hform, hfilter]
    have hpm : (ids.filterMap (byIdGet base)).Perm
        (base.filter (fun q => ids.contains q.id)) := by
      refine (List.perm_ext_iff_of_nodup (mapped_nodup base ids hndIds)
        ((List.Nodup.of_map _ hndBase).filter _)).2 ?_
      intro q
      rw [mem_mapped hndBase, List.mem_filter]
      constructor
      · rintro ⟨h1, h2⟩
        exact ⟨h1, strContainsIffMem.2 h2⟩
      · rintro ⟨h1, h2⟩
        exact ⟨h1, strContainsIffMem.1 h2⟩
    exact (hpm.append (List.Perm.refl _)).trans
      (List.filter_append_perm (fun q => ids.contains q.id) base)
  refine ⟨by rw [hqs]; exact hperm, ?_⟩
  rw [hqs, hform, hfilter, List.map_append, mapped_map_id]

/-- Witness for C8: document `[A, B, C]`, saved order `["C", "X", "A"]`
(`"X"` no longer exists) resumes as `[C, A, B]`. -/
theorem C8_resume_witness :
    ((handleResumeQuiz lastUnansweredState
        { id := "s1",
          quizDataQuestions := [Question.tf "A" "pa" true none,
            Question.tf "B" "pb" true none, Question.tf "C" "pc" true none],
          settings := { randomOrder := false },
          answers := fun _ => none,
          currentIndex := 0,
          completed := false,
          questionOrder := some ["C", "X", "A"],
          currentQuestionId := none,
          orderedQuestions := none }).questions).Perm
      [Question.tf "A" "pa" true none, Question.tf "B" "pb" true none,
       Question.tf "C" "pc" true none] :=
  (C8_resume_stable_under_shrinkage lastUnansweredState
    { id := "s1",
      quizDataQuestions := [Question.tf "A" "pa" true none,
        Question.tf "B" "pb" true none, Question.tf "C" "pc" true none],
      settings := { randomOrder := false },
      answers := fun _ => none,
      currentIndex := 0,
      completed := false,
      questionOrder := some ["C", "X", "A"],
      currentQuestionId := none,
      orderedQuestions := none }
    ["C", "X", "A"] rfl (by decide) (by decide)
    ⟨"C", by simp, Question.tf "C" "pc" true none, by simp, rfl⟩).1

end Questionary
